import Mathlib

/-!
Verification of the incremental synchronization engine of the Souzou
repository (backend sync pull/push endpoints).

The repository ships the sync endpoints' URL routes
(`backend/api/urls.py`: `sync/pull` → SyncPullView, `sync/push` →
SyncPushView) and their test suites
(`backend/api/tests/test_sync_pull.py`, `test_sync_push.py`), but the
view classes themselves and the sync-specific model fields
(`rev`, `server_updated_at`, `deleted`, `deleted_at`) are not present in
the checked-in source.  The definitions below therefore model the
missing handlers from the specification, constrained by the behavior the
in-repository tests pin down (wire key names, acceptance of `client_rev
= 0` creations, the `server` conflict-snapshot key, delete semantics).
Timestamps are modelled as natural-number ticks of the server clock;
JSON metadata blobs are carried as opaque strings.
-/

namespace Souzou

/-- A small JSON value AST used to model the wire encoding of the
pull/push endpoints (key names, record field lists, request decoding). -/
inductive Json where
  | null : Json
  | bool : Bool → Json
  | num : Int → Json
  | str : String → Json
  | arr : List Json → Json
  | obj : List (String × Json) → Json
deriving Repr

/-- Keys of a JSON object (empty for non-objects). -/
def Json.keys : Json → List String
  | .obj fs => fs.map Prod.fst
  | _ => []

/-- Field lookup in a JSON object. -/
def Json.get (j : Json) (k : String) : Option Json :=
  match j with
  | .obj fs => (fs.find? (fun f => f.1 == k)).map Prod.snd
  | _ => none

/-- Extract a JSON string. -/
def Json.asString : Json → Option String
  | .str s => some s
  | _ => none

/-- Extract a JSON integer. -/
def Json.asInt : Json → Option Int
  | .num n => some n
  | _ => none

/-- Elements of a JSON array (empty for non-arrays). -/
def Json.items : Json → List Json
  | .arr xs => xs
  | _ => []

/-- Modelled from the spec (§3) and `backend/api/tests`: the stored shape
of an item ("entity") record.  The sync fields `rev`,
`server_updated_at`, `deleted`, `deleted_at` are absent from the
checked-in `backend/api/models.py` and are modelled from the spec; the
remaining fields mirror the `Entity` model.  `metadata` is an opaque
JSON blob carried as a string. -/
structure EntityRec where
  id : String
  type : String
  title : String
  content : String
  parent : Option String
  metadata : String
  tags : List String
  rev : Nat
  server_updated_at : Nat
  deleted : Bool
  deleted_at : Option Nat
deriving Repr, DecidableEq

/-- Modelled from the spec (§3, §6) and `backend/api/models.py` `Tag`:
the stored shape of a tag record, with the spec-modelled sync fields. -/
structure TagRec where
  id : String
  name : String
  color : String
  description : String
  parent : Option String
  rev : Nat
  server_updated_at : Nat
  deleted : Bool
  deleted_at : Option Nat
deriving Repr, DecidableEq

/-- The server-of-record state: both record kinds. -/
structure Store where
  entities : List EntityRec
  tags : List TagRec
deriving Repr, DecidableEq

/-- Per-kind slice of a pull response: full records for upserts, bare id
strings for deletes. -/
structure KindChanges (α : Type) where
  upserts : List α
  deletes : List String
deriving Repr, DecidableEq

/-- A pull response before wire encoding. -/
structure PullResp where
  cursor : Nat
  entities : KindChanges EntityRec
  tags : KindChanges TagRec
deriving Repr, DecidableEq

/-- Modelled from the spec (§4.1): the entity-kind change-set query.
Upserts are the non-deleted records updated strictly after `since`;
deletes are the bare ids of tombstoned records updated strictly after
`since`. -/
def entityChanges (es : List EntityRec) (since : Nat) : KindChanges EntityRec :=
  { upserts := es.filter (fun e => !e.deleted && since < e.server_updated_at)
  , deletes := (es.filter (fun e => e.deleted && since < e.server_updated_at)).map (fun e => e.id) }

/-- Modelled from the spec (§4.1): the tag-kind change-set query. -/
def tagChanges (ts : List TagRec) (since : Nat) : KindChanges TagRec :=
  { upserts := ts.filter (fun t => !t.deleted && since < t.server_updated_at)
  , deletes := (ts.filter (fun t => t.deleted && since < t.server_updated_at)).map (fun t => t.id) }

/-- Parse a decimal numeral; any non-digit character fails the parse. -/
def parseDecimal : List Char → Nat → Option Nat
  | [], acc => some acc
  | c :: cs, acc =>
    if c.isDigit then parseDecimal cs (acc * 10 + (c.toNat - 48)) else none

/-- Modelled from the spec (§4.1, §7): parse the `since` query parameter.
ISO-8601 timestamps are abstracted as decimal tick strings; a string
that does not parse as a numeral (such as a calendar-date form) yields
`none`. -/
def parseTimestamp (s : String) : Option Nat :=
  match s.data with
  | [] => none
  | cs => parseDecimal cs 0

/-- Modelled from the spec (§4.1): the effective `since` bound — an
omitted or unparsable parameter degrades to the epoch (0). -/
def effectiveSince (sinceRaw : Option String) : Nat :=
  match sinceRaw with
  | none => 0
  | some s => (parseTimestamp s).getD 0

/-- Modelled from the spec (§4.1 and the §9 design note): the Pull
handler.  `storeAtQuery` is the store state both change-set queries
observed; `cursorTime` is the clock value sampled for the returned
cursor.  Per the §9 note the source samples the clock strictly *after*
running both queries, so `cursorTime` is a tick at or after the query
execution — a write committing between the queries and the sample leaves
`storeAtQuery` stale while `cursorTime` already covers it. -/
def sync_pull (storeAtQuery : Store) (sinceRaw : Option String) (cursorTime : Nat) : PullResp :=
  let since := effectiveSince sinceRaw
  { cursor := cursorTime
  , entities := entityChanges storeAtQuery.entities since
  , tags := tagChanges storeAtQuery.tags since }

/-- Modelled from the spec (§6) and `test_sync_pull.py`: wire encoding of
an item record. -/
def entityToJson (e : EntityRec) : Json :=
  .obj [ ("id", .str e.id)
       , ("type", .str e.type)
       , ("title", .str e.title)
       , ("content", .str e.content)
       , ("parent", match e.parent with | none => .null | some p => .str p)
       , ("metadata", .str e.metadata)
       , ("tags", .arr (e.tags.map Json.str))
       , ("rev", .num e.rev)
       , ("server_updated_at", .num e.server_updated_at) ]

/-- Modelled from the spec (§6) and `test_sync_pull.py`: wire encoding of
a tag record. -/
def tagToJson (t : TagRec) : Json :=
  .obj [ ("id", .str t.id)
       , ("name", .str t.name)
       , ("color", .str t.color)
       , ("description", .str t.description)
       , ("parent", match t.parent with | none => .null | some p => .str p)
       , ("rev", .num t.rev)
       , ("server_updated_at", .num t.server_updated_at) ]

/-- Wire encoding of one kind's change slice. -/
def kindChangesToJson (toJ : α → Json) (kc : KindChanges α) : Json :=
  .obj [ ("upserts", .arr (kc.upserts.map toJ))
       , ("deletes", .arr (kc.deletes.map Json.str)) ]

/-- Modelled from `test_sync_pull.py` (which reads
`changes.entities` / `changes.tags`): wire encoding of a pull response. -/
def pullRespToJson (p : PullResp) : Json :=
  .obj [ ("cursor", .num p.cursor)
       , ("changes", .obj [ ("entities", kindChangesToJson entityToJson p.entities)
                          , ("tags", kindChangesToJson tagToJson p.tags) ]) ]

/-- An HTTP response: status code plus JSON body. -/
structure HttpResponse where
  httpStatus : Nat
  body : Json
deriving Repr

/-- Modelled from the spec (§6) and `test_sync_pull.py`: the
`GET /sync/pull` endpoint.  Always 200 for a well-formed request. -/
def sync_pull_endpoint (storeAtQuery : Store) (sinceRaw : Option String) (cursorTime : Nat) : HttpResponse :=
  { httpStatus := 200, body := pullRespToJson (sync_pull storeAtQuery sinceRaw cursorTime) }

/-- Modelled from the spec (§4.2, §6): the partial record payload of an
item push op.  An absent field leaves the stored field untouched on
merge; `parent` distinguishes "absent" from "present and null". -/
structure EntityData where
  type : Option String
  title : Option String
  content : Option String
  parent : Option (Option String)
  metadata : Option String
  tags : Option (List String)
deriving Repr, DecidableEq

/-- Modelled from the spec (§4.2, §6): the partial record payload of a
tag push op. -/
structure TagData where
  name : Option String
  color : Option String
  description : Option String
  parent : Option (Option String)
deriving Repr, DecidableEq

/-- Modelled from the spec (§4.2): one push op, generic over the
kind-specific partial payload. -/
structure PushOp (δ : Type) where
  op : String
  id : String
  client_rev : Int
  data : δ
deriving Repr, DecidableEq

/-- Modelled from the spec (§4.2, §6) and `test_sync_push.py`: the
per-op push result.  The conflict snapshot travels under the wire key
`server` (per the test's assertion) as an already-encoded JSON record. -/
structure PushResult where
  id : String
  status : String
  rev : Option Nat
  server_updated_at : Option Nat
  server : Option Json
deriving Repr

/-- Modelled from the spec (§4.2) and `backend/api/models.py` defaults:
create a fresh entity from an upsert payload; the creating mutation
leaves it at `rev = 1`. -/
def mkEntity (id : String) (d : EntityData) (now : Nat) : EntityRec :=
  { id := id
  , type := d.type.getD "note"
  , title := d.title.getD ""
  , content := d.content.getD ""
  , parent := d.parent.join
  , metadata := d.metadata.getD "\x7b\x7d"
  , tags := d.tags.getD []
  , rev := 1
  , server_updated_at := now
  , deleted := false
  , deleted_at := none }

/-- Modelled from the spec (§4.2 step 3): merge the submitted fields
onto the stored record, bump `rev`, refresh `server_updated_at`.  The
tombstone fields are server-owned and not merged. -/
def mergeEntity (r : EntityRec) (d : EntityData) (now : Nat) : EntityRec :=
  { r with
    type := d.type.getD r.type
  , title := d.title.getD r.title
  , content := d.content.getD r.content
  , parent := d.parent.getD r.parent
  , metadata := d.metadata.getD r.metadata
  , tags := d.tags.getD r.tags
  , rev := r.rev + 1
  , server_updated_at := now }

/-- Replace the stored entity carrying `r'.id` by `r'` (the row-level
UPDATE of the per-op transaction). -/
def updateEntity (es : List EntityRec) (r' : EntityRec) : List EntityRec :=
  es.map (fun e => if e.id == r'.id then r' else e)

/-- Modelled from the spec (§4.2) and `test_sync_push.py`: apply one
item push op to the entity table, returning the new table and the per-op
result.
* absent id, `delete` → idempotently applied with `rev 0`, no change;
* absent id, `upsert` → create at `rev 1` (the tests accept
  `client_rev = 0` here, so no revision fence applies to creation);
* existing id → fence `client_rev - 1 == rev`; on success an upsert
  merges and a delete tombstones, both bumping `rev` and refreshing
  `server_updated_at`; on mismatch a conflict carrying the authoritative
  snapshot under `server`, with the row untouched;
* an unknown op string → per-op `error`, no change. -/
def applyEntityOp (now : Nat) (es : List EntityRec) (o : PushOp EntityData) : List EntityRec × PushResult :=
  if o.op != "upsert" && o.op != "delete" then
    (es, { id := o.id, status := "error", rev := none, server_updated_at := none, server := none })
  else
    match es.find? (fun e => e.id == o.id) with
    | none =>
      if o.op == "delete" then
        (es, { id := o.id, status := "applied", rev := some 0, server_updated_at := none, server := none })
      else
        let r := mkEntity o.id o.data now
        (es ++ [r],
         { id := o.id, status := "applied", rev := some 1, server_updated_at := some now, server := none })
    | some r =>
      if o.client_rev - 1 = (r.rev : Int) then
        if o.op == "delete" then
          (updateEntity es { r with deleted := true, deleted_at := some now,
                                    rev := r.rev + 1, server_updated_at := now },
           { id := o.id, status := "applied", rev := some (r.rev + 1)
           , server_updated_at := some now, server := none })
        else
          (updateEntity es (mergeEntity r o.data now),
           { id := o.id, status := "applied", rev := some (r.rev + 1)
           , server_updated_at := some now, server := none })
      else
        (es, { id := o.id, status := "conflict", rev := none, server_updated_at := none
             , server := some (entityToJson r) })

/-- Modelled from the spec (§4.2) and `backend/api/models.py` defaults:
create a fresh tag from an upsert payload. -/
def mkTag (id : String) (d : TagData) (now : Nat) : TagRec :=
  { id := id
  , name := d.name.getD ""
  , color := d.color.getD "#6B7280"
  , description := d.description.getD ""
  , parent := d.parent.join
  , rev := 1
  , server_updated_at := now
  , deleted := false
  , deleted_at := none }

/-- Modelled from the spec (§4.2 step 3): merge a tag payload onto the
stored tag. -/
def mergeTag (t : TagRec) (d : TagData) (now : Nat) : TagRec :=
  { t with
    name := d.name.getD t.name
  , color := d.color.getD t.color
  , description := d.description.getD t.description
  , parent := d.parent.getD t.parent
  , rev := t.rev + 1
  , server_updated_at := now }

/-- Replace the stored tag carrying `t'.id` by `t'`. -/
def updateTag (ts : List TagRec) (t' : TagRec) : List TagRec :=
  ts.map (fun t => if t.id == t'.id then t' else t)

/-- Modelled from the spec (§4.2) and `backend/api/models.py` (`Tag.name`
is declared `unique=True`): apply one tag push op.  Same fence and
tombstone semantics as for items; in addition an upsert whose resulting
name collides with a *different* stored tag's name violates the store's
unique constraint and is rejected as a per-op `error` with the table
untouched. -/
def applyTagOp (now : Nat) (ts : List TagRec) (o : PushOp TagData) : List TagRec × PushResult :=
  if o.op != "upsert" && o.op != "delete" then
    (ts, { id := o.id, status := "error", rev := none, server_updated_at := none, server := none })
  else
    match ts.find? (fun t => t.id == o.id) with
    | none =>
      if o.op == "delete" then
        (ts, { id := o.id, status := "applied", rev := some 0, server_updated_at := none, server := none })
      else
        if ts.any (fun u => u.name == (mkTag o.id o.data now).name) then
          (ts, { id := o.id, status := "error", rev := none, server_updated_at := none, server := none })
        else
          (ts ++ [mkTag o.id o.data now],
           { id := o.id, status := "applied", rev := some 1, server_updated_at := some now, server := none })
    | some t =>
      if o.client_rev - 1 = (t.rev : Int) then
        if o.op == "delete" then
          (updateTag ts { t with deleted := true, deleted_at := some now,
                                 rev := t.rev + 1, server_updated_at := now },
           { id := o.id, status := "applied", rev := some (t.rev + 1)
           , server_updated_at := some now, server := none })
        else
          if ts.any (fun u => u.id != o.id && u.name == (mergeTag t o.data now).name) then
            (ts, { id := o.id, status := "error", rev := none, server_updated_at := none, server := none })
          else
            (updateTag ts (mergeTag t o.data now),
             { id := o.id, status := "applied", rev := some (t.rev + 1)
             , server_updated_at := some now, server := none })
      else
        (ts, { id := o.id, status := "conflict", rev := none, server_updated_at := none
             , server := some (tagToJson t) })

/-- Modelled from the spec (§4.2 batch semantics): apply the item ops of
one push request left to right, one result per op, each op resolved
against the store state left by its predecessors. -/
def pushEntityOps (now : Nat) : List EntityRec → List (PushOp EntityData) → List EntityRec × List PushResult
  | es, [] => (es, [])
  | es, o :: rest =>
    let step := applyEntityOp now es o
    let tail := pushEntityOps now step.1 rest
    (tail.1, step.2 :: tail.2)

/-- Modelled from the spec (§4.2 batch semantics): apply the tag ops of
one push request left to right. -/
def pushTagOps (now : Nat) : List TagRec → List (PushOp TagData) → List TagRec × List PushResult
  | ts, [] => (ts, [])
  | ts, o :: rest =>
    let step := applyTagOp now ts o
    let tail := pushTagOps now step.1 rest
    (tail.1, step.2 :: tail.2)

/-- Modelled from the spec (§6) and `test_sync_push.py`: wire encoding
of a per-op push result; optional keys are present only when set, the
conflict snapshot travels under the key `server`. -/
def pushResultToJson (r : PushResult) : Json :=
  .obj ([("id", Json.str r.id), ("status", Json.str r.status)]
    ++ (match r.rev with | some n => [("rev", Json.num n)] | none => [])
    ++ (match r.server_updated_at with | some n => [("server_updated_at", Json.num n)] | none => [])
    ++ (match r.server with | some j => [("server", j)] | none => []))

/-- Decode an item op payload; absent keys stay absent, a JSON `null`
`parent` is "present and null". -/
def decodeEntityData (j : Json) : EntityData :=
  { type := (j.get "type").bind Json.asString
  , title := (j.get "title").bind Json.asString
  , content := (j.get "content").bind Json.asString
  , parent := (j.get "parent").map Json.asString
  , metadata := (j.get "metadata").bind Json.asString
  , tags := (j.get "tags").map (fun v => v.items.filterMap Json.asString) }

/-- Decode a tag op payload. -/
def decodeTagData (j : Json) : TagData :=
  { name := (j.get "name").bind Json.asString
  , color := (j.get "color").bind Json.asString
  , description := (j.get "description").bind Json.asString
  , parent := (j.get "parent").map Json.asString }

/-- Decode one item push op; `none` on a missing `op`, `id` or
`client_rev` (the spec's per-op ValidationError). -/
def decodeEntityOp (j : Json) : Option (PushOp EntityData) :=
  match (j.get "op").bind Json.asString, (j.get "id").bind Json.asString,
        (j.get "client_rev").bind Json.asInt with
  | some op, some id, some crev =>
    some { op := op, id := id, client_rev := crev
         , data := decodeEntityData ((j.get "data").getD (.obj [])) }
  | _, _, _ => none

/-- Decode one tag push op. -/
def decodeTagOp (j : Json) : Option (PushOp TagData) :=
  match (j.get "op").bind Json.asString, (j.get "id").bind Json.asString,
        (j.get "client_rev").bind Json.asInt with
  | some op, some id, some crev =>
    some { op := op, id := id, client_rev := crev
         , data := decodeTagData ((j.get "data").getD (.obj [])) }
  | _, _, _ => none

/-- The per-op result for an op that fails to decode (spec §7:
ValidationError is per-item, it does not abort the batch). -/
def validationErrorResult (j : Json) : PushResult :=
  { id := ((j.get "id").bind Json.asString).getD ""
  , status := "error", rev := none, server_updated_at := none, server := none }

/-- Apply one raw (JSON) item op: decode failures yield a per-op error
and leave the table unchanged. -/
def applyEntityOpJson (now : Nat) (es : List EntityRec) (j : Json) : List EntityRec × PushResult :=
  match decodeEntityOp j with
  | none => (es, validationErrorResult j)
  | some o => applyEntityOp now es o

/-- Apply one raw (JSON) tag op. -/
def applyTagOpJson (now : Nat) (ts : List TagRec) (j : Json) : List TagRec × PushResult :=
  match decodeTagOp j with
  | none => (ts, validationErrorResult j)
  | some o => applyTagOp now ts o

/-- Apply the raw item ops of a request body left to right. -/
def pushEntityOpsJson (now : Nat) : List EntityRec → List Json → List EntityRec × List PushResult
  | es, [] => (es, [])
  | es, j :: rest =>
    let step := applyEntityOpJson now es j
    let tail := pushEntityOpsJson now step.1 rest
    (tail.1, step.2 :: tail.2)

/-- Apply the raw tag ops of a request body left to right. -/
def pushTagOpsJson (now : Nat) : List TagRec → List Json → List TagRec × List PushResult
  | ts, [] => (ts, [])
  | ts, j :: rest =>
    let step := applyTagOpJson now ts j
    let tail := pushTagOpsJson now step.1 rest
    (tail.1, step.2 :: tail.2)

/-- Modelled from the spec (§6) and `test_sync_push.py`: the
`POST /sync/push` endpoint.  The request body carries its item ops under
the key `entities` and its tag ops under `tags` (a missing key means no
ops of that kind); the response mirrors the two keys and is HTTP 200
even when individual ops report `conflict` or `error`. -/
def sync_push_endpoint (now : Nat) (s : Store) (body : Json) : Store × HttpResponse :=
  let eOps := ((body.get "entities").getD (.arr [])).items
  let tOps := ((body.get "tags").getD (.arr [])).items
  let eStep := pushEntityOpsJson now s.entities eOps
  let tStep := pushTagOpsJson now s.tags tOps
  ({ entities := eStep.1, tags := tStep.1 },
   { httpStatus := 200
   , body := .obj [ ("entities", .arr (eStep.2.map pushResultToJson))
                  , ("tags", .arr (tStep.2.map pushResultToJson)) ] })

/-! ## Theorems -/

/-- C1: the Pull handler's returned cursor is *not* sampled before the
change-set queries execute — per the §9 design note the source samples
the clock only after both queries have run.  Concrete lost-update trace:
an upsert accepted at tick 5 commits after Pull₁'s queries ran (against
the then-empty store) but before Pull₁'s cursor was sampled at tick 6.
The accepted record is absent from Pull₁'s response, is a live
non-deleted record with `server_updated_at` (5) below Pull₁'s cursor
(6), and is also absent from the follow-up Pull₂ issued with `since =`
that cursor — the accepted mutation is permanently skipped. -/
theorem pull_cursor_sampled_after_queries_loses_update :
    (applyEntityOp 5 []
      { op := "upsert", id := "r1", client_rev := 0
      , data := { type := some "note", title := some "A", content := some "x"
                , parent := some none, metadata := none, tags := some [] } }).2.status = "applied"
    ∧ (applyEntityOp 5 []
        { op := "upsert", id := "r1", client_rev := 0
        , data := { type := some "note", title := some "A", content := some "x"
                  , parent := some none, metadata := none, tags := some [] } }).1.all
        (fun e => !e.deleted && e.server_updated_at <
          (sync_pull { entities := [], tags := [] } none 6).cursor)
    ∧ (sync_pull { entities := [], tags := [] } none 6).entities.upserts = []
    ∧ (sync_pull { entities := [], tags := [] } none 6).entities.deletes = []
    ∧ (sync_pull
        { entities := (applyEntityOp 5 []
            { op := "upsert", id := "r1", client_rev := 0
            , data := { type := some "note", title := some "A", content := some "x"
                      , parent := some none, metadata := none, tags := some [] } }).1
        , tags := [] } (some "6") 9).entities.upserts = []
    ∧ (sync_pull
        { entities := (applyEntityOp 5 []
            { op := "upsert", id := "r1", client_rev := 0
            , data := { type := some "note", title := some "A", content := some "x"
                      , parent := some none, metadata := none, tags := some [] } }).1
        , tags := [] } (some "6") 9).entities.deletes = [] :=
  ⟨rfl, rfl, rfl, rfl, rfl, rfl⟩

/-- C6: a delete op whose id matches no stored record is idempotently
applied with `rev 0`: the entity table is returned unchanged and the
result is `applied` (never `conflict` or `error`). -/
theorem push_delete_absent_idempotent (now : Nat) (es : List EntityRec) (o : PushOp EntityData)
    (hop : o.op = "delete") (habs : es.find? (fun e => e.id == o.id) = none) :
    applyEntityOp now es o =
      (es, { id := o.id, status := "applied", rev := some 0
           , server_updated_at := none, server := none }) := by
  simp [applyEntityOp, hop, habs]

/-- Witness for C6 at a concrete absent id. -/
theorem push_delete_absent_idempotent_witness :
    (("delete" : String) = "delete"
      ∧ ([] : List EntityRec).find? (fun e => e.id == "u1") = none)
    ∧ applyEntityOp 3 []
        { op := "delete", id := "u1", client_rev := 1
        , data := { type := none, title := none, content := none
                  , parent := none, metadata := none, tags := none } } =
      ([], { id := "u1", status := "applied", rev := some 0
           , server_updated_at := none, server := none }) :=
  ⟨⟨rfl, rfl⟩, push_delete_absent_idempotent 3 [] _ rfl rfl⟩

/-- C7: a Pull whose `since` parameter is omitted or unparsable succeeds
(HTTP 200) and degrades to a full resync from the epoch: given that
every stored record carries a positive server timestamp, the upserts of
each kind are exactly the full non-deleted population (and the deletes
are exactly the tombstoned ids). -/
theorem pull_malformed_cursor_full_resync (s : Store) (raw : Option String) (t : Nat)
    (hraw : raw = none ∨ ∃ str, raw = some str ∧ parseTimestamp str = none)
    (hE : ∀ e ∈ s.entities, 0 < e.server_updated_at)
    (hT : ∀ tg ∈ s.tags, 0 < tg.server_updated_at) :
    (sync_pull_endpoint s raw t).httpStatus = 200
    ∧ (sync_pull s raw t).entities.upserts = s.entities.filter (fun e => !e.deleted)
    ∧ (sync_pull s raw t).tags.upserts = s.tags.filter (fun tg => !tg.deleted)
    ∧ (sync_pull s raw t).entities.deletes
        = (s.entities.filter (fun e => e.deleted)).map (fun e => e.id)
    ∧ (sync_pull s raw t).tags.deletes
        = (s.tags.filter (fun tg => tg.deleted)).map (fun tg => tg.id) := by
  have hsince : effectiveSince raw = 0 := by
    rcases hraw with h | ⟨str, hs, hp⟩
    · simp [h, effectiveSince]
    · simp [hs, effectiveSince, hp]
  refine ⟨rfl, ?_, ?_, ?_, ?_⟩
  · show (entityChanges s.entities (effectiveSince raw)).upserts = _
    rw [hsince]
    exact List.filter_congr fun e he => by
      rw [decide_eq_true (hE e he), Bool.and_true]
  · show (tagChanges s.tags (effectiveSince raw)).upserts = _
    rw [hsince]
    exact List.filter_congr fun tg htg => by
      rw [decide_eq_true (hT tg htg), Bool.and_true]
  · show ((entityChanges s.entities (effectiveSince raw)).deletes) = _
    rw [hsince]
    exact congrArg (List.map _) (List.filter_congr fun e he => by
      rw [decide_eq_true (hE e he), Bool.and_true])
  · show ((tagChanges s.tags (effectiveSince raw)).deletes) = _
    rw [hsince]
    exact congrArg (List.map _) (List.filter_congr fun tg htg => by
      rw [decide_eq_true (hT tg htg), Bool.and_true])

/-- A concrete entity used by witnesses. -/
def wE1 : EntityRec :=
  { id := "e1", type := "note", title := "n", content := "c"
  , parent := none, metadata := "m", tags := [], rev := 1
  , server_updated_at := 4, deleted := false, deleted_at := none }

/-- A concrete tag used by witnesses. -/
def wT1 : TagRec :=
  { id := "t1", name := "tag1", color := "#6B7280", description := ""
  , parent := none, rev := 1, server_updated_at := 4
  , deleted := false, deleted_at := none }

/-- The concrete one-entity, one-tag store used by witnesses. -/
def wStore : Store := { entities := [wE1], tags := [wT1] }

/-- Witness for C7: the spec's own example cursor string
`1970-01-01T00:00:00Z` is unparsable in the tick model and yields the
full non-deleted population of both kinds. -/
theorem pull_malformed_cursor_full_resync_witness :
    ((some "1970-01-01T00:00:00Z" = (none : Option String)
        ∨ ∃ str, some "1970-01-01T00:00:00Z" = some str ∧ parseTimestamp str = none)
      ∧ (∀ e ∈ wStore.entities, 0 < e.server_updated_at)
      ∧ (∀ tg ∈ wStore.tags, 0 < tg.server_updated_at))
    ∧ ((sync_pull_endpoint wStore (some "1970-01-01T00:00:00Z") 9).httpStatus = 200
        ∧ (sync_pull wStore (some "1970-01-01T00:00:00Z") 9).entities.upserts
            = wStore.entities.filter (fun e => !e.deleted)
        ∧ (sync_pull wStore (some "1970-01-01T00:00:00Z") 9).tags.upserts
            = wStore.tags.filter (fun tg => !tg.deleted)
        ∧ (sync_pull wStore (some "1970-01-01T00:00:00Z") 9).entities.deletes
            = (wStore.entities.filter (fun e => e.deleted)).map (fun e => e.id)
        ∧ (sync_pull wStore (some "1970-01-01T00:00:00Z") 9).tags.deletes
            = (wStore.tags.filter (fun tg => tg.deleted)).map (fun tg => tg.id)) :=
  ⟨⟨Or.inr ⟨_, rfl, by decide⟩, by decide, by decide⟩,
   pull_malformed_cursor_full_resync wStore (some "1970-01-01T00:00:00Z") 9
     (Or.inr ⟨_, rfl, by decide⟩) (by decide) (by decide)⟩

/-- C3 counterexample: at a concrete revision-mismatched upsert (stored
rev 1, `client_rev` 1, so the implied expected rev 0 differs), the
result is a conflict, but the authoritative snapshot travels under the
wire key `server` — the key `server_snapshot` named by the claim does
not occur in the encoded result. -/
theorem push_conflict_snapshot_key_not_server_snapshot :
    (applyEntityOp 5 wStore.entities
      { op := "upsert", id := "e1", client_rev := 1
      , data := { type := none, title := some "T", content := none
                , parent := none, metadata := none, tags := none } }).2.status = "conflict"
    ∧ "server_snapshot" ∉ (pushResultToJson (applyEntityOp 5 wStore.entities
        { op := "upsert", id := "e1", client_rev := 1
        , data := { type := none, title := some "T", content := none
                  , parent := none, metadata := none, tags := none } }).2).keys
    ∧ "server" ∈ (pushResultToJson (applyEntityOp 5 wStore.entities
        { op := "upsert", id := "e1", client_rev := 1
        , data := { type := none, title := some "T", content := none
                  , parent := none, metadata := none, tags := none } }).2).keys := by
  refine ⟨rfl, by decide, by decide⟩

/-- C3 (amended): a push op on an existing record whose revision fence
fails (`client_rev - 1` differs from the stored rev) yields status
`conflict` carrying the current authoritative record under the wire key
`server`, and the entity table — hence the record's rev, fields and
timestamps — is left completely unchanged. -/
theorem push_conflict_semantics (now : Nat) (es : List EntityRec) (o : PushOp EntityData)
    (r : EntityRec) (hvalid : o.op = "upsert" ∨ o.op = "delete")
    (hfind : es.find? (fun e => e.id == o.id) = some r)
    (hfence : ¬ o.client_rev - 1 = (r.rev : Int)) :
    applyEntityOp now es o =
      (es, { id := o.id, status := "conflict", rev := none
           , server_updated_at := none, server := some (entityToJson r) })
    ∧ (pushResultToJson (applyEntityOp now es o).2).keys = ["id", "status", "server"] := by
  have h1 : applyEntityOp now es o =
      (es, { id := o.id, status := "conflict", rev := none
           , server_updated_at := none, server := some (entityToJson r) }) := by
    rcases hvalid with h | h <;> simp [applyEntityOp, h, hfind, hfence]
  exact ⟨h1, by rw [h1]; rfl⟩

/-- Witness for C3's amended theorem at the concrete mismatched upsert. -/
theorem push_conflict_semantics_witness :
    ((("upsert" : String) = "upsert" ∨ ("upsert" : String) = "delete")
      ∧ wStore.entities.find? (fun e => e.id == "e1")
          = some { id := "e1", type := "note", title := "n", content := "c"
                 , parent := none, metadata := "m", tags := [], rev := 1
                 , server_updated_at := 4, deleted := false, deleted_at := none }
      ∧ ¬ (1 : Int) - 1 = ((1 : Nat) : Int))
    ∧ (applyEntityOp 5 wStore.entities
        { op := "upsert", id := "e1", client_rev := 1
        , data := { type := none, title := some "T", content := none
                  , parent := none, metadata := none, tags := none } } =
        (wStore.entities,
         { id := "e1", status := "conflict", rev := none, server_updated_at := none
         , server := some (entityToJson
             { id := "e1", type := "note", title := "n", content := "c"
             , parent := none, metadata := "m", tags := [], rev := 1
             , server_updated_at := 4, deleted := false, deleted_at := none }) })
      ∧ (pushResultToJson (applyEntityOp 5 wStore.entities
          { op := "upsert", id := "e1", client_rev := 1
          , data := { type := none, title := some "T", content := none
                    , parent := none, metadata := none, tags := none } }).2).keys
          = ["id", "status", "server"]) :=
  ⟨⟨Or.inl rfl, by decide, by decide⟩,
   push_conflict_semantics 5 wStore.entities _ _ (Or.inl rfl) (by decide) (by decide)⟩

/-- C4: for any store and cursor bound `since`, Pull's upserts are
exactly the non-deleted records with `server_updated_at > since`, its
deletes are exactly the ids of tombstoned records with
`server_updated_at > since` (bare id strings, no record payload), and —
given primary-key-unique ids — no record's id occurs in both lists. -/
theorem pull_changes_exact (es : List EntityRec) (ts : List TagRec) (since : Nat)
    (hE : (es.map EntityRec.id).Nodup) (hT : (ts.map TagRec.id).Nodup) :
    (∀ e, e ∈ (entityChanges es since).upserts ↔
       e ∈ es ∧ e.deleted = false ∧ since < e.server_updated_at)
    ∧ (∀ i, i ∈ (entityChanges es since).deletes ↔
       ∃ e, e ∈ es ∧ e.deleted = true ∧ since < e.server_updated_at ∧ i = e.id)
    ∧ (∀ e, e ∈ (entityChanges es since).upserts → e.id ∉ (entityChanges es since).deletes)
    ∧ (∀ t, t ∈ (tagChanges ts since).upserts ↔
       t ∈ ts ∧ t.deleted = false ∧ since < t.server_updated_at)
    ∧ (∀ i, i ∈ (tagChanges ts since).deletes ↔
       ∃ t, t ∈ ts ∧ t.deleted = true ∧ since < t.server_updated_at ∧ i = t.id)
    ∧ (∀ t, t ∈ (tagChanges ts since).upserts → t.id ∉ (tagChanges ts since).deletes) := by
  refine ⟨?_, ?_, ?_, ?_, ?_, ?_⟩
  · intro e
    simp only [entityChanges, List.mem_filter, Bool.and_eq_true, Bool.not_eq_true',
      decide_eq_true_eq, and_assoc]
  · intro i
    constructor
    · intro h
      rcases List.mem_map.mp h with ⟨e, he, rfl⟩
      rcases List.mem_filter.mp he with ⟨hmem, hp⟩
      rw [Bool.and_eq_true] at hp
      exact ⟨e, hmem, hp.1, of_decide_eq_true hp.2, rfl⟩
    · rintro ⟨e, hmem, hd, hlt, rfl⟩
      refine List.mem_map.mpr ⟨e, List.mem_filter.mpr ⟨hmem, ?_⟩, rfl⟩
      rw [Bool.and_eq_true]
      exact ⟨hd, decide_eq_true hlt⟩
  · intro e hu hd
    rcases List.mem_filter.mp hu with ⟨hmem, hp⟩
    rw [Bool.and_eq_true] at hp
    obtain ⟨hnd, -⟩ := hp
    rcases List.mem_map.mp hd with ⟨e', he', hid⟩
    rcases List.mem_filter.mp he' with ⟨hmem', hp'⟩
    rw [Bool.and_eq_true] at hp'
    obtain ⟨hd', -⟩ := hp'
    have heq : e' = e :=
      List.inj_on_of_nodup_map hE (List.mem_of_mem_filter he') hmem hid
    rw [heq] at hd'
    rw [Bool.not_eq_true'] at hnd
    rw [hnd] at hd'
    exact Bool.false_ne_true hd'
  · intro t
    simp only [tagChanges, List.mem_filter, Bool.and_eq_true, Bool.not_eq_true',
      decide_eq_true_eq, and_assoc]
  · intro i
    constructor
    · intro h
      rcases List.mem_map.mp h with ⟨t, ht, rfl⟩
      rcases List.mem_filter.mp ht with ⟨hmem, hp⟩
      rw [Bool.and_eq_true] at hp
      exact ⟨t, hmem, hp.1, of_decide_eq_true hp.2, rfl⟩
    · rintro ⟨t, hmem, hd, hlt, rfl⟩
      refine List.mem_map.mpr ⟨t, List.mem_filter.mpr ⟨hmem, ?_⟩, rfl⟩
      rw [Bool.and_eq_true]
      exact ⟨hd, decide_eq_true hlt⟩
  · intro t hu hd
    rcases List.mem_filter.mp hu with ⟨hmem, hp⟩
    rw [Bool.and_eq_true] at hp
    obtain ⟨hnd, -⟩ := hp
    rcases List.mem_map.mp hd with ⟨t', ht', hid⟩
    rcases List.mem_filter.mp ht' with ⟨hmem', hp'⟩
    rw [Bool.and_eq_true] at hp'
    obtain ⟨hd', -⟩ := hp'
    have heq : t' = t :=
      List.inj_on_of_nodup_map hT (List.mem_of_mem_filter ht') hmem hid
    rw [heq] at hd'
    rw [Bool.not_eq_true'] at hnd
    rw [hnd] at hd'
    exact Bool.false_ne_true hd'

/-- Witness for C4 at the concrete one-entity, one-tag store with
cursor bound 2. -/
theorem pull_changes_exact_witness :
    ((wStore.entities.map EntityRec.id).Nodup ∧ (wStore.tags.map TagRec.id).Nodup)
    ∧ ((∀ e, e ∈ (entityChanges wStore.entities 2).upserts ↔
         e ∈ wStore.entities ∧ e.deleted = false ∧ 2 < e.server_updated_at)
      ∧ (∀ i, i ∈ (entityChanges wStore.entities 2).deletes ↔
         ∃ e, e ∈ wStore.entities ∧ e.deleted = true ∧ 2 < e.server_updated_at ∧ i = e.id)
      ∧ (∀ e, e ∈ (entityChanges wStore.entities 2).upserts →
         e.id ∉ (entityChanges wStore.entities 2).deletes)
      ∧ (∀ t, t ∈ (tagChanges wStore.tags 2).upserts ↔
         t ∈ wStore.tags ∧ t.deleted = false ∧ 2 < t.server_updated_at)
      ∧ (∀ i, i ∈ (tagChanges wStore.tags 2).deletes ↔
         ∃ t, t ∈ wStore.tags ∧ t.deleted = true ∧ 2 < t.server_updated_at ∧ i = t.id)
      ∧ (∀ t, t ∈ (tagChanges wStore.tags 2).upserts →
         t.id ∉ (tagChanges wStore.tags 2).deletes)) :=
  ⟨⟨by decide, by decide⟩,
   pull_changes_exact wStore.entities wStore.tags 2 (by decide) (by decide)⟩

/-- C2 counterexample: an upsert of an absent id with `client_rev = 0`
(the repository's own `test_sync_push_create_new_entity` payload) is
accepted and applied at rev 1, although `client_rev - 1 = -1` differs
from the server rev implied for an absent record (0) — so "accepted iff
`client_rev - 1` equals the server's current rev" fails. -/
theorem push_create_accepted_without_fence :
    (applyEntityOp 7 []
      { op := "upsert", id := "12345678-1234-1234-1234-123456789012", client_rev := 0
      , data := { type := some "note", title := some "New Note", content := some "New Content"
                , parent := some none, metadata := none, tags := some [] } }).2.status = "applied"
    ∧ (applyEntityOp 7 []
        { op := "upsert", id := "12345678-1234-1234-1234-123456789012", client_rev := 0
        , data := { type := some "note", title := some "New Note", content := some "New Content"
                  , parent := some none, metadata := none, tags := some [] } }).2.rev = some 1
    ∧ (0 : Int) - 1 ≠ ((0 : Nat) : Int) :=
  ⟨rfl, rfl, by decide⟩

/-- C2 (amended): for a push op whose id matches a stored record the op
is accepted exactly when `client_rev - 1` equals the stored rev; an
accepted upsert on an existing record merges the submitted fields onto
the stored record, sets `rev := server_rev + 1` and
`server_updated_at := now`, and returns `applied` with the new rev.  An
upsert of an absent id is accepted regardless of `client_rev`, creating
the record at rev 1. -/
theorem push_upsert_fence_semantics (now : Nat) (es : List EntityRec) (o : PushOp EntityData)
    (hop : o.op = "upsert" ∨ o.op = "delete") :
    (∀ r, es.find? (fun e => e.id == o.id) = some r →
       ((applyEntityOp now es o).2.status = "applied" ↔ o.client_rev - 1 = (r.rev : Int)))
    ∧ (∀ r, es.find? (fun e => e.id == o.id) = some r → o.op = "upsert" →
        o.client_rev - 1 = (r.rev : Int) →
        applyEntityOp now es o =
          (updateEntity es (mergeEntity r o.data now),
           { id := o.id, status := "applied", rev := some (r.rev + 1)
           , server_updated_at := some now, server := none }))
    ∧ (es.find? (fun e => e.id == o.id) = none → o.op = "upsert" →
        applyEntityOp now es o =
          (es ++ [mkEntity o.id o.data now],
           { id := o.id, status := "applied", rev := some 1
           , server_updated_at := some now, server := none })) := by
  refine ⟨?_, ?_, ?_⟩
  · intro r hfind
    by_cases hf : o.client_rev - 1 = (r.rev : Int)
    · rcases hop with h | h <;>
        simp [applyEntityOp, h, hfind, hf]
    · rcases hop with h | h <;>
        simp [applyEntityOp, h, hfind, hf]
  · intro r hfind hu hf
    simp [applyEntityOp, hu, hfind, hf, mergeEntity]
  · intro hnone hu
    simp [applyEntityOp, hu, hnone]

/-- Witness for C2's amended theorem: stored rev 1, upsert with
`client_rev = 2` passes the fence and merges. -/
theorem push_upsert_fence_semantics_witness :
    (("upsert" : String) = "upsert" ∨ ("upsert" : String) = "delete")
    ∧ ((∀ r, wStore.entities.find? (fun e => e.id == "e1") = some r →
         ((applyEntityOp 6 wStore.entities
            { op := "upsert", id := "e1", client_rev := 2
            , data := { type := none, title := some "B", content := none
                      , parent := none, metadata := none, tags := none } }).2.status = "applied"
           ↔ (2 : Int) - 1 = (r.rev : Int)))
      ∧ (∀ r, wStore.entities.find? (fun e => e.id == "e1") = some r →
          ("upsert" : String) = "upsert" → (2 : Int) - 1 = (r.rev : Int) →
          applyEntityOp 6 wStore.entities
            { op := "upsert", id := "e1", client_rev := 2
            , data := { type := none, title := some "B", content := none
                      , parent := none, metadata := none, tags := none } } =
            (updateEntity wStore.entities
              (mergeEntity r { type := none, title := some "B", content := none
                             , parent := none, metadata := none, tags := none } 6),
             { id := "e1", status := "applied", rev := some (r.rev + 1)
             , server_updated_at := some 6, server := none }))
      ∧ (wStore.entities.find? (fun e => e.id == "e1") = none →
          ("upsert" : String) = "upsert" →
          applyEntityOp 6 wStore.entities
            { op := "upsert", id := "e1", client_rev := 2
            , data := { type := none, title := some "B", content := none
                      , parent := none, metadata := none, tags := none } } =
            (wStore.entities ++ [mkEntity "e1"
              { type := none, title := some "B", content := none
              , parent := none, metadata := none, tags := none } 6],
             { id := "e1", status := "applied", rev := some 1
             , server_updated_at := some 6, server := none }))) :=
  ⟨Or.inl rfl, push_upsert_fence_semantics 6 wStore.entities
    { op := "upsert", id := "e1", client_rev := 2
    , data := { type := none, title := some "B", content := none
              , parent := none, metadata := none, tags := none } } (Or.inl rfl)⟩

/-- Replacing the record with a matching id does not change the stored
id column. -/
theorem updateEntity_map_id (es : List EntityRec) (r' : EntityRec) :
    (updateEntity es r').map EntityRec.id = es.map EntityRec.id := by
  unfold updateEntity
  rw [List.map_map]
  refine List.map_congr_left ?_
  intro e _
  simp only [Function.comp_apply]
  by_cases h : (e.id == r'.id) = true
  · rw [if_pos h]
    exact (beq_iff_eq.mp h).symm
  · rw [if_neg h]

/-- Every element of `updateEntity es r'` is either `r'` itself or an
untouched element of `es` whose id differs from `r'.id`. -/
theorem mem_updateEntity_cases {es : List EntityRec} {r' e' : EntityRec}
    (h : e' ∈ updateEntity es r') :
    e' = r' ∨ (e' ∈ es ∧ ¬ e'.id = r'.id) := by
  unfold updateEntity at h
  rcases List.mem_map.mp h with ⟨x, hx, hxe⟩
  by_cases hc : (x.id == r'.id) = true
  · left
    rw [← hxe, if_pos hc]
  · right
    rw [← hxe, if_neg hc]
    exact ⟨hx, fun habs => hc (beq_iff_eq.mpr habs)⟩

/-- Applying one entity op preserves uniqueness of stored ids. -/
theorem applyEntityOp_nodup (now : Nat) (es : List EntityRec) (o : PushOp EntityData)
    (hids : (es.map EntityRec.id).Nodup) :
    ((applyEntityOp now es o).1.map EntityRec.id).Nodup := by
  unfold applyEntityOp
  split
  · exact hids
  · split
    · split
      · exact hids
      · rename_i hnone _
        rw [List.map_append]
        refine List.Nodup.append hids (List.nodup_singleton _) ?_
        intro a ha hb
        rcases List.mem_map.mp ha with ⟨x, hx, hxid⟩
        have hne := List.find?_eq_none.mp hnone x hx
        simp only [List.map_cons, List.map_nil, List.mem_singleton, mkEntity] at hb
        exact hne (beq_iff_eq.mpr (by rw [hxid, hb]))
    · split
      · split
        · rw [updateEntity_map_id]
          exact hids
        · rw [updateEntity_map_id]
          exact hids
      · exact hids

/-- The replacement record itself is stored after `updateEntity`
whenever some stored record carries its id. -/
theorem updateEntity_mem_target {es : List EntityRec} {e r' : EntityRec}
    (he : e ∈ es) (h : e.id = r'.id) :
    r' ∈ updateEntity es r' := by
  unfold updateEntity
  have hm := List.mem_map_of_mem (fun x => if x.id == r'.id then r' else x) he
  have hm' : (if (e.id == r'.id) = true then r' else e) ∈
      es.map (fun x => if x.id == r'.id then r' else x) := hm
  rwa [if_pos (beq_iff_eq.mpr h)] at hm'

/-- A stored record whose id differs from the replacement's id survives
`updateEntity` untouched. -/
theorem updateEntity_mem_other {es : List EntityRec} {e r' : EntityRec}
    (he : e ∈ es) (h : ¬ e.id = r'.id) :
    e ∈ updateEntity es r' := by
  unfold updateEntity
  have hm := List.mem_map_of_mem (fun x => if x.id == r'.id then r' else x) he
  have hm' : (if (e.id == r'.id) = true then r' else e) ∈
      es.map (fun x => if x.id == r'.id then r' else x) := hm
  rwa [if_neg (fun habs => h (beq_iff_eq.mp habs))] at hm'

/-- A tombstoned record persists across one push op: some record with
the same id is still stored afterwards and is still tombstoned.  Needs
unique stored ids. -/
theorem entity_tombstone_persists (now : Nat) (es : List EntityRec) (o : PushOp EntityData)
    (hids : (es.map EntityRec.id).Nodup) (e : EntityRec) (he : e ∈ es)
    (hd : e.deleted = true) :
    ∃ e₁, e₁ ∈ (applyEntityOp now es o).1 ∧ e₁.id = e.id ∧ e₁.deleted = true := by
  have uniq : ∀ x ∈ es, x.id = e.id → x = e := fun x hx h =>
    List.inj_on_of_nodup_map hids hx he h
  unfold applyEntityOp
  split
  · exact ⟨e, he, rfl, hd⟩
  · split
    · split
      · exact ⟨e, he, rfl, hd⟩
      · exact ⟨e, List.mem_append_left _ he, rfl, hd⟩
    · rename_i r hfind
      have hrmem : r ∈ es := List.mem_of_find?_eq_some hfind
      split
      · split
        · -- accepted delete: the matching record is replaced by its tombstone
          by_cases hc : e.id = r.id
          · exact ⟨_, updateEntity_mem_target he hc, hc.symm, rfl⟩
          · exact ⟨e, updateEntity_mem_other he hc, rfl, hd⟩
        · -- accepted upsert merge: the merge preserves the tombstone flag
          by_cases hc : e.id = r.id
          · refine ⟨_, updateEntity_mem_target he hc, hc.symm, ?_⟩
            show r.deleted = true
            rw [uniq r hrmem hc.symm]
            exact hd
          · exact ⟨e, updateEntity_mem_other he hc, rfl, hd⟩
      · exact ⟨e, he, rfl, hd⟩

/-- Once tombstoned, a record's id never maps to a non-deleted record
again across any batch of push ops (unique stored ids assumed). -/
theorem pushEntityOps_tombstone_terminal (now : Nat) (ops : List (PushOp EntityData)) :
    ∀ es : List EntityRec, (es.map EntityRec.id).Nodup →
    ∀ e ∈ es, e.deleted = true →
    ∀ e' ∈ (pushEntityOps now es ops).1, e'.id = e.id → e'.deleted = true := by
  induction ops with
  | nil =>
    intro es hids e he hd e' he' hide
    have : e' = e := List.inj_on_of_nodup_map hids he' he hide
    rw [this]
    exact hd
  | cons o rest ih =>
    intro es hids e he hd e' he' hide
    obtain ⟨e₁, he₁, hid₁, hd₁⟩ := entity_tombstone_persists now es o hids e he hd
    have hids₁ := applyEntityOp_nodup now es o hids
    exact ih (applyEntityOp now es o).1 hids₁ e₁ he₁ hd₁ e' he' (by rw [hide, ← hid₁])

/-- C5: an accepted delete on an existing record (fence
`client_rev - 1 = rev` passes) tombstones it — `deleted := true`,
`deleted_at := now`, `rev := server_rev + 1`, `server_updated_at := now`
— and returns `applied` with the new rev; and across any batch of
subsequent push ops the tombstone is terminal: no record under that id
ever reverts to `deleted = false`. -/
theorem push_delete_tombstone_terminal :
    (∀ (now : Nat) (es : List EntityRec) (o : PushOp EntityData) (r : EntityRec),
      o.op = "delete" →
      es.find? (fun e => e.id == o.id) = some r →
      o.client_rev - 1 = (r.rev : Int) →
      applyEntityOp now es o =
        (updateEntity es { r with deleted := true, deleted_at := some now,
                                  rev := r.rev + 1, server_updated_at := now },
         { id := o.id, status := "applied", rev := some (r.rev + 1)
         , server_updated_at := some now, server := none }))
    ∧ (∀ (now : Nat) (ops : List (PushOp EntityData)) (es : List EntityRec),
        (es.map EntityRec.id).Nodup →
        ∀ e ∈ es, e.deleted = true →
        ∀ e' ∈ (pushEntityOps now es ops).1, e'.id = e.id → e'.deleted = true) := by
  constructor
  · intro now es o r hop hfind hfence
    simp [applyEntityOp, hop, hfind, hfence]
  · intro now ops es hids e he hd
    exact pushEntityOps_tombstone_terminal now ops es hids e he hd

/-- A concrete tombstoned entity used by the C5 witness. -/
def wDel : EntityRec :=
  { id := "d1", type := "note", title := "gone", content := ""
  , parent := none, metadata := "m", tags := [], rev := 3
  , server_updated_at := 2, deleted := true, deleted_at := some 2 }

/-- Witness for C5: a fenced delete of the stored rev-1 entity, and an
attempted resurrecting upsert of a tombstoned record that leaves the
tombstone in place. -/
theorem push_delete_tombstone_terminal_witness :
    ((("delete" : String) = "delete"
        ∧ wStore.entities.find? (fun e => e.id == "e1") = some wE1
        ∧ (2 : Int) - 1 = (wE1.rev : Int))
      ∧ (([wDel].map EntityRec.id).Nodup ∧ wDel ∈ [wDel] ∧ wDel.deleted = true))
    ∧ (applyEntityOp 8 wStore.entities
        { op := "delete", id := "e1", client_rev := 2
        , data := { type := none, title := none, content := none
                  , parent := none, metadata := none, tags := none } } =
        (updateEntity wStore.entities
          { wE1 with deleted := true, deleted_at := some 8,
                     rev := wE1.rev + 1, server_updated_at := 8 },
         { id := "e1", status := "applied", rev := some (wE1.rev + 1)
         , server_updated_at := some 8, server := none })
      ∧ (∀ e' ∈ (pushEntityOps 9 [wDel]
          [{ op := "upsert", id := "d1", client_rev := 4
           , data := { type := none, title := some "back", content := none
                     , parent := none, metadata := none, tags := none } }]).1,
          e'.id = wDel.id → e'.deleted = true)) :=
  ⟨⟨⟨rfl, by decide, by decide⟩, ⟨by decide, by decide, by decide⟩⟩,
   push_delete_tombstone_terminal.1 8 wStore.entities
     { op := "delete", id := "e1", client_rev := 2
     , data := { type := none, title := none, content := none
               , parent := none, metadata := none, tags := none } } wE1
     rfl (by decide) (by decide),
   push_delete_tombstone_terminal.2 9
     [{ op := "upsert", id := "d1", client_rev := 4
      , data := { type := none, title := some "back", content := none
                , parent := none, metadata := none, tags := none } }]
     [wDel] (by decide) wDel (by decide) (by decide)⟩

/-- The entity batch produces one result per op. -/
theorem pushEntityOps_length (now : Nat) (ops : List (PushOp EntityData)) :
    ∀ es, ((pushEntityOps now es ops).2).length = ops.length := by
  induction ops with
  | nil => intro es; rfl
  | cons o rest ih =>
    intro es
    show ((applyEntityOp now es o).2
      :: (pushEntityOps now (applyEntityOp now es o).1 rest).2).length = rest.length + 1
    rw [List.length_cons, ih]

/-- The tag batch produces one result per op. -/
theorem pushTagOps_length (now : Nat) (ops : List (PushOp TagData)) :
    ∀ ts, ((pushTagOps now ts ops).2).length = ops.length := by
  induction ops with
  | nil => intro ts; rfl
  | cons o rest ih =>
    intro ts
    show ((applyTagOp now ts o).2
      :: (pushTagOps now (applyTagOp now ts o).1 rest).2).length = rest.length + 1
    rw [List.length_cons, ih]

/-- The raw (JSON) entity batch produces one result per submitted op,
decode failures included. -/
theorem pushEntityOpsJson_length (now : Nat) (js : List Json) :
    ∀ es, ((pushEntityOpsJson now es js).2).length = js.length := by
  induction js with
  | nil => intro es; rfl
  | cons j rest ih =>
    intro es
    show ((applyEntityOpJson now es j).2
      :: (pushEntityOpsJson now (applyEntityOpJson now es j).1 rest).2).length = rest.length + 1
    rw [List.length_cons, ih]

/-- The raw (JSON) tag batch produces one result per submitted op. -/
theorem pushTagOpsJson_length (now : Nat) (js : List Json) :
    ∀ ts, ((pushTagOpsJson now ts js).2).length = js.length := by
  induction js with
  | nil => intro ts; rfl
  | cons j rest ih =>
    intro ts
    show ((applyTagOpJson now ts j).2
      :: (pushTagOpsJson now (applyTagOpJson now ts j).1 rest).2).length = rest.length + 1
    rw [List.length_cons, ih]

/-- An entity op that does not report `applied` (conflict or error)
leaves the entity table untouched. -/
theorem applyEntityOp_not_applied_unchanged (now : Nat) (es : List EntityRec)
    (o : PushOp EntityData) (h : (applyEntityOp now es o).2.status ≠ "applied") :
    (applyEntityOp now es o).1 = es := by
  revert h
  unfold applyEntityOp
  split
  · intro _; rfl
  · split
    · split
      · intro _; rfl
      · intro h; exact absurd rfl h
    · split
      · split
        · intro h; exact absurd rfl h
        · intro h; exact absurd rfl h
      · intro _; rfl

/-- A tag op that does not report `applied` leaves the tag table
untouched. -/
theorem applyTagOp_not_applied_unchanged (now : Nat) (ts : List TagRec)
    (o : PushOp TagData) (h : (applyTagOp now ts o).2.status ≠ "applied") :
    (applyTagOp now ts o).1 = ts := by
  revert h
  unfold applyTagOp
  split
  · intro _; rfl
  · split
    · split
      · intro _; rfl
      · split
        · intro _; rfl
        · intro h; exact absurd rfl h
    · split
      · split
        · intro h; exact absurd rfl h
        · split
          · intro _; rfl
          · intro h; exact absurd rfl h
      · intro _; rfl

/-- C8: every push batch yields exactly one result per submitted op
(typed and raw layers, both kinds); an op resolving to conflict or error
leaves the store untouched, so it neither rolls back nor alters the
processing of the remaining ops — dropping a non-applied head op changes
nothing but its own result entry; and the push endpoint answers HTTP 200
regardless of per-op outcomes. -/
theorem push_batch_per_op_results :
    (∀ (now : Nat) (es : List EntityRec) (ops : List (PushOp EntityData)),
       ((pushEntityOps now es ops).2).length = ops.length)
    ∧ (∀ (now : Nat) (ts : List TagRec) (ops : List (PushOp TagData)),
       ((pushTagOps now ts ops).2).length = ops.length)
    ∧ (∀ (now : Nat) (es : List EntityRec) (js : List Json),
       ((pushEntityOpsJson now es js).2).length = js.length)
    ∧ (∀ (now : Nat) (ts : List TagRec) (js : List Json),
       ((pushTagOpsJson now ts js).2).length = js.length)
    ∧ (∀ (now : Nat) (es : List EntityRec) (o : PushOp EntityData),
       (applyEntityOp now es o).2.status ≠ "applied" → (applyEntityOp now es o).1 = es)
    ∧ (∀ (now : Nat) (ts : List TagRec) (o : PushOp TagData),
       (applyTagOp now ts o).2.status ≠ "applied" → (applyTagOp now ts o).1 = ts)
    ∧ (∀ (now : Nat) (es : List EntityRec) (o : PushOp EntityData) rest,
       (applyEntityOp now es o).2.status ≠ "applied" →
       pushEntityOps now es (o :: rest)
         = ((pushEntityOps now es rest).1,
            (applyEntityOp now es o).2 :: (pushEntityOps now es rest).2))
    ∧ (∀ (now : Nat) (s : Store) (body : Json),
       ((sync_push_endpoint now s body).2).httpStatus = 200) := by
  refine ⟨fun now es ops => pushEntityOps_length now ops es,
    fun now ts ops => pushTagOps_length now ops ts,
    fun now es js => pushEntityOpsJson_length now js es,
    fun now ts js => pushTagOpsJson_length now js ts,
    applyEntityOp_not_applied_unchanged,
    applyTagOp_not_applied_unchanged,
    ?_, fun now s body => rfl⟩
  intro now es o rest h
  show ((pushEntityOps now (applyEntityOp now es o).1 rest).1,
        (applyEntityOp now es o).2 :: (pushEntityOps now (applyEntityOp now es o).1 rest).2) = _
  rw [applyEntityOp_not_applied_unchanged now es o h]

/-- Witness for C8: a conflicting op (stored rev 1, `client_rev` 1) does
not change the store and does not disturb the processing of the rest of
the batch. -/
theorem push_batch_per_op_results_witness :
    ((applyEntityOp 5 wStore.entities
        { op := "upsert", id := "e1", client_rev := 1
        , data := { type := none, title := some "T", content := none
                  , parent := none, metadata := none, tags := none } }).2.status ≠ "applied")
    ∧ (applyEntityOp 5 wStore.entities
        { op := "upsert", id := "e1", client_rev := 1
        , data := { type := none, title := some "T", content := none
                  , parent := none, metadata := none, tags := none } }).1 = wStore.entities
    ∧ pushEntityOps 5 wStore.entities
        [{ op := "upsert", id := "e1", client_rev := 1
         , data := { type := none, title := some "T", content := none
                   , parent := none, metadata := none, tags := none } },
         { op := "upsert", id := "e1", client_rev := 2
         , data := { type := none, title := some "B", content := none
                   , parent := none, metadata := none, tags := none } }]
        = ((pushEntityOps 5 wStore.entities
            [{ op := "upsert", id := "e1", client_rev := 2
             , data := { type := none, title := some "B", content := none
                       , parent := none, metadata := none, tags := none } }]).1,
           (applyEntityOp 5 wStore.entities
             { op := "upsert", id := "e1", client_rev := 1
             , data := { type := none, title := some "T", content := none
                       , parent := none, metadata := none, tags := none } }).2
             :: (pushEntityOps 5 wStore.entities
               [{ op := "upsert", id := "e1", client_rev := 2
                , data := { type := none, title := some "B", content := none
                          , parent := none, metadata := none, tags := none } }]).2) :=
  ⟨by decide,
   push_batch_per_op_results.2.2.2.2.1 5 wStore.entities
     { op := "upsert", id := "e1", client_rev := 1
     , data := { type := none, title := some "T", content := none
               , parent := none, metadata := none, tags := none } } (by decide),
   push_batch_per_op_results.2.2.2.2.2.2.1 5 wStore.entities
     { op := "upsert", id := "e1", client_rev := 1
     , data := { type := none, title := some "T", content := none
               , parent := none, metadata := none, tags := none } }
     [{ op := "upsert", id := "e1", client_rev := 2
      , data := { type := none, title := some "B", content := none
                , parent := none, metadata := none, tags := none } }] (by decide)⟩

/-- C9 counterexample: at a concrete store, the pull response's
`changes` object is keyed `entities` and `tags` (the repository's tests
read `changes.entities`), and `items` is not among its keys; a push
request body keyed `items` is ignored outright — no op is processed and
no result is returned. -/
theorem pull_changes_not_keyed_items :
    ((pullRespToJson (sync_pull wStore none 9)).get "changes").map Json.keys
      = some ["entities", "tags"]
    ∧ "items" ∉ (((pullRespToJson (sync_pull wStore none 9)).get "changes").map Json.keys).getD []
    ∧ (sync_push_endpoint 5 wStore
        (Json.obj [("items", Json.arr [Json.obj
          [("op", Json.str "upsert"), ("id", Json.str "e1"), ("client_rev", Json.num 2)]])])).1
        = wStore
    ∧ ((sync_push_endpoint 5 wStore
        (Json.obj [("items", Json.arr [Json.obj
          [("op", Json.str "upsert"), ("id", Json.str "e1"), ("client_rev", Json.num 2)]])])).2).body
        = Json.obj [("entities", Json.arr []), ("tags", Json.arr [])] :=
  ⟨rfl, by decide, rfl, rfl⟩

/-- C9 (amended): the pull response is keyed `cursor`/`changes` with the
changes object keyed by the record kinds `entities` and `tags`; each
encoded item record carries the wire fields id, type, title, content,
parent, metadata, tags, rev, server_updated_at (each encoded tag record
id, name, color, description, parent, rev, server_updated_at); and the
push request body is read under the same `entities`/`tags` keys, which
the response mirrors with one result per submitted op. -/
theorem sync_wire_shape :
    (∀ (s : Store) (raw : Option String) (t : Nat),
       (pullRespToJson (sync_pull s raw t)).keys = ["cursor", "changes"])
    ∧ (∀ (s : Store) (raw : Option String) (t : Nat),
       ((pullRespToJson (sync_pull s raw t)).get "changes").map Json.keys
         = some ["entities", "tags"])
    ∧ (∀ e : EntityRec, (entityToJson e).keys
       = ["id", "type", "title", "content", "parent", "metadata", "tags", "rev",
          "server_updated_at"])
    ∧ (∀ t : TagRec, (tagToJson t).keys
       = ["id", "name", "color", "description", "parent", "rev", "server_updated_at"])
    ∧ (∀ (now : Nat) (s : Store) (l m : List Json),
       ∃ eRes tRes,
         ((sync_push_endpoint now s
             (Json.obj [("entities", Json.arr l), ("tags", Json.arr m)])).2).body
           = Json.obj [("entities", Json.arr eRes), ("tags", Json.arr tRes)]
         ∧ eRes.length = l.length ∧ tRes.length = m.length) := by
  refine ⟨fun s raw t => rfl, fun s raw t => rfl, fun e => rfl, fun t => rfl, ?_⟩
  intro now s l m
  refine ⟨((pushEntityOpsJson now s.entities l).2).map pushResultToJson,
          ((pushTagOpsJson now s.tags m).2).map pushResultToJson, rfl, ?_, ?_⟩
  · rw [List.length_map]
    exact pushEntityOpsJson_length now l s.entities
  · rw [List.length_map]
    exact pushTagOpsJson_length now m s.tags

/-- No two distinct stored tag records carry the same name (the
`unique=True` constraint on `Tag.name` in `backend/api/models.py`). -/
def tagNamesUnique (ts : List TagRec) : Prop :=
  ∀ t₁ ∈ ts, ∀ t₂ ∈ ts, t₁.name = t₂.name → t₁ = t₂

instance (ts : List TagRec) : Decidable (tagNamesUnique ts) := by
  unfold tagNamesUnique
  infer_instance

/-- Every element of `updateTag ts t'` is either `t'` itself or an
untouched element of `ts` whose id differs from `t'.id`. -/
theorem mem_updateTag_cases {ts : List TagRec} {t' u : TagRec}
    (h : u ∈ updateTag ts t') :
    u = t' ∨ (u ∈ ts ∧ ¬ u.id = t'.id) := by
  unfold updateTag at h
  rcases List.mem_map.mp h with ⟨x, hx, hxe⟩
  by_cases hc : (x.id == t'.id) = true
  · left
    rw [← hxe, if_pos hc]
  · right
    rw [← hxe, if_neg hc]
    exact ⟨hx, fun habs => hc (beq_iff_eq.mpr habs)⟩

/-- One tag push op preserves global uniqueness of tag names. -/
theorem applyTagOp_namesUnique (now : Nat) (ts : List TagRec) (o : PushOp TagData)
    (h : tagNamesUnique ts) : tagNamesUnique (applyTagOp now ts o).1 := by
  unfold tagNamesUnique at h ⊢
  unfold applyTagOp
  split
  · exact h
  · split
    · split
      · exact h
      · split
        · exact h
        · -- accepted create: the guard ruled out any name collision
          rename_i hnoclash
          intro t₁ h₁ t₂ h₂ hname
          rcases List.mem_append.mp h₁ with hA | hA <;>
            rcases List.mem_append.mp h₂ with hB | hB
          · exact h t₁ hA t₂ hB hname
          · rw [List.mem_singleton] at hB
            have hn1 : t₁.name = (mkTag o.id o.data now).name := by rw [hname, hB]
            have hany : (ts.any fun u => u.name == (mkTag o.id o.data now).name) = true :=
              List.any_eq_true.mpr ⟨t₁, hA, beq_iff_eq.mpr hn1⟩
            exact absurd hany hnoclash
          · rw [List.mem_singleton] at hA
            have hn2 : t₂.name = (mkTag o.id o.data now).name := by rw [← hname, hA]
            have hany : (ts.any fun u => u.name == (mkTag o.id o.data now).name) = true :=
              List.any_eq_true.mpr ⟨t₂, hB, beq_iff_eq.mpr hn2⟩
            exact absurd hany hnoclash
          · rw [List.mem_singleton] at hA hB
            rw [hA, hB]
    · rename_i t hfind
      have htmem : t ∈ ts := List.mem_of_find?_eq_some hfind
      have hp := List.find?_some hfind
      have htid : t.id = o.id := beq_iff_eq.mp hp
      split
      · split
        · -- accepted delete: names unchanged
          intro t₁ h₁ t₂ h₂ hname
          rcases mem_updateTag_cases h₁ with hA | ⟨hA, hAne⟩ <;>
            rcases mem_updateTag_cases h₂ with hB | ⟨hB, hBne⟩
          · rw [hA, hB]
          · exfalso
            have ht2 : t.name = t₂.name := by rw [← hname, hA]
            have := h t htmem t₂ hB ht2
            exact hBne (by rw [← this])
          · exfalso
            have ht1 : t₁.name = t.name := by rw [hname, hB]
            have := h t₁ hA t htmem ht1
            exact hAne (by rw [this])
          · exact h t₁ hA t₂ hB hname
        · split
          · exact h
          · -- accepted merge: the guard ruled out collisions with other ids
            rename_i hnoclash
            intro t₁ h₁ t₂ h₂ hname
            rcases mem_updateTag_cases h₁ with hA | ⟨hA, hAne⟩ <;>
              rcases mem_updateTag_cases h₂ with hB | ⟨hB, hBne⟩
            · rw [hA, hB]
            · exfalso
              refine hnoclash (List.any_eq_true.mpr ⟨t₂, hB, ?_⟩)
              rw [Bool.and_eq_true]
              refine ⟨bne_iff_ne.mpr (fun habs => hBne (by rw [habs, ← htid]; rfl)), ?_⟩
              refine beq_iff_eq.mpr ?_
              show t₂.name = (mergeTag t o.data now).name
              rw [← hname, hA]
            · exfalso
              refine hnoclash (List.any_eq_true.mpr ⟨t₁, hA, ?_⟩)
              rw [Bool.and_eq_true]
              refine ⟨bne_iff_ne.mpr (fun habs => hAne (by rw [habs, ← htid]; rfl)), ?_⟩
              refine beq_iff_eq.mpr ?_
              show t₁.name = (mergeTag t o.data now).name
              rw [hname, hB]
            · exact h t₁ hA t₂ hB hname
      · exact h

/-- A whole tag push batch preserves global uniqueness of tag names. -/
theorem pushTagOps_namesUnique (now : Nat) (ops : List (PushOp TagData)) :
    ∀ ts : List TagRec, tagNamesUnique ts → tagNamesUnique (pushTagOps now ts ops).1 := by
  induction ops with
  | nil => intro ts h; exact h
  | cons o rest ih =>
    intro ts h
    exact ih (applyTagOp now ts o).1 (applyTagOp_namesUnique now ts o h)

/-- C10: tag names are globally unique in the store.  Any push batch
preserves the uniqueness invariant; an upsert that would create a fresh
tag under an already-stored name, or rename an existing tag to another
tag's name, is rejected by the store as a per-op error with the tag
table untouched — never applied. -/
theorem tag_name_unique_store :
    (∀ (now : Nat) (ops : List (PushOp TagData)) (ts : List TagRec),
       tagNamesUnique ts → tagNamesUnique (pushTagOps now ts ops).1)
    ∧ (∀ (now : Nat) (ts : List TagRec) (o : PushOp TagData),
       o.op = "upsert" → ts.find? (fun u => u.id == o.id) = none →
       (∃ u ∈ ts, u.name = (mkTag o.id o.data now).name) →
       applyTagOp now ts o
         = (ts, { id := o.id, status := "error", rev := none
                , server_updated_at := none, server := none }))
    ∧ (∀ (now : Nat) (ts : List TagRec) (o : PushOp TagData) (t : TagRec),
       o.op = "upsert" → ts.find? (fun u => u.id == o.id) = some t →
       o.client_rev - 1 = (t.rev : Int) →
       (∃ u ∈ ts, ¬ u.id = o.id ∧ u.name = (mergeTag t o.data now).name) →
       applyTagOp now ts o
         = (ts, { id := o.id, status := "error", rev := none
                , server_updated_at := none, server := none })) := by
  refine ⟨fun now ops ts h => pushTagOps_namesUnique now ops ts h, ?_, ?_⟩
  · intro now ts o hop hnone hclash
    rcases hclash with ⟨u, hu, hun⟩
    have hany : (ts.any fun v => v.name == (mkTag o.id o.data now).name) = true :=
      List.any_eq_true.mpr ⟨u, hu, beq_iff_eq.mpr hun⟩
    simp [applyTagOp, hop, hnone, hany]
  · intro now ts o t hop hfind hfence hclash
    rcases hclash with ⟨u, hu, hune, hun⟩
    have hany : (ts.any fun v => v.id != o.id && v.name == (mergeTag t o.data now).name)
        = true := by
      refine List.any_eq_true.mpr ⟨u, hu, ?_⟩
      rw [Bool.and_eq_true]
      exact ⟨bne_iff_ne.mpr hune, beq_iff_eq.mpr hun⟩
    simp [applyTagOp, hop, hfind, hfence, hany]

/-- Witness for C10: a single-tag store, a duplicate-name create attempt
rejected as an error, and invariant preservation across that batch. -/
theorem tag_name_unique_store_witness :
    (tagNamesUnique [wT1]
      ∧ (("upsert" : String) = "upsert"
          ∧ ([wT1].find? (fun u => u.id == "t2") = none)
          ∧ ∃ u ∈ [wT1], u.name = (mkTag "t2"
              { name := some "tag1", color := none, description := none, parent := none } 5).name))
    ∧ (tagNamesUnique (pushTagOps 5 [wT1]
        [{ op := "upsert", id := "t2", client_rev := 0
         , data := { name := some "tag1", color := none, description := none
                   , parent := none } }]).1
      ∧ applyTagOp 5 [wT1]
          { op := "upsert", id := "t2", client_rev := 0
          , data := { name := some "tag1", color := none, description := none
                    , parent := none } }
          = ([wT1], { id := "t2", status := "error", rev := none
                    , server_updated_at := none, server := none })) :=
  ⟨⟨by decide, rfl, by decide, ⟨wT1, by decide, by decide⟩⟩,
   tag_name_unique_store.1 5
     [{ op := "upsert", id := "t2", client_rev := 0
      , data := { name := some "tag1", color := none, description := none
                , parent := none } }] [wT1] (by decide),
   tag_name_unique_store.2.1 5 [wT1]
     { op := "upsert", id := "t2", client_rev := 0
     , data := { name := some "tag1", color := none, description := none
               , parent := none } } rfl (by decide) ⟨wT1, by decide, by decide⟩⟩

end Souzou
